import Mathlib

/-!
Verification of the ats-resume-refinery client (src/App.tsx together with the
bundled Gemini service module) against its natural-language specification.

The embedding is shallow: JavaScript strings are modelled as lists of
characters, the asynchronous handlers are modelled as lists of synchronous
segments cut at their `await` points (run by a fold in the sequential case and
by an explicit interleaving scheduler when two attempts overlap), and the
external capabilities (pdf.js, mammoth, the canvas, the Gemini transport and
the JSON.parse builtin) are modelled by environment records holding their
observable outcomes for one ingestion attempt.
-/

/-- Whitespace class shared by the JavaScript regex class \s and by
String.prototype.trim: ASCII whitespace plus the Unicode space separators,
line/paragraph separators and the BOM. -/
def jsWs (c : Char) : Bool :=
  c = ' ' || c = '\t' || c = '\n' || c = '\r' || c = '\x0b' || c = '\x0c' ||
  c = '\u00A0' || c = '\u1680' || c = '\u2000' || c = '\u2001' || c = '\u2002' ||
  c = '\u2003' || c = '\u2004' || c = '\u2005' || c = '\u2006' || c = '\u2007' ||
  c = '\u2008' || c = '\u2009' || c = '\u200A' || c = '\u2028' || c = '\u2029' ||
  c = '\u202F' || c = '\u205F' || c = '\u3000' || c = '\uFEFF'

/-- JavaScript String.prototype.trim: drop leading and trailing whitespace. -/
def jsTrim (cs : List Char) : List Char :=
  ((cs.dropWhile jsWs).reverse.dropWhile jsWs).reverse

/-- Character-by-character core of the JavaScript split(/\s+/) semantics: the
current (reversed) token is carried in `acc`, and `prevWs` records whether the
previous character belonged to a whitespace run. A whitespace character closes
the pending token (possibly empty, as JS produces for a leading separator)
unless it merely extends a run; the end of input always emits the pending
token, so a trailing separator yields a trailing empty token exactly as JS
does. -/
def jsSplitWsAux : List Char → List Char → Bool → List (List Char)
  | [], acc, _ => [acc.reverse]
  | c :: cs, acc, prevWs =>
    if jsWs c then
      if prevWs then jsSplitWsAux cs [] true
      else acc.reverse :: jsSplitWsAux cs [] true
    else jsSplitWsAux cs (c :: acc) false

/-- JavaScript semantics of str.split(/\s+/) on the character-list model. -/
def jsSplitWs (cs : List Char) : List (List Char) := jsSplitWsAux cs [] false

/-- Counting core for the specification-side word count: `inWord` records
whether a word is currently open; a word is counted when it is closed by a
whitespace character or by the end of the input. -/
def wordCountAux : List Char → Bool → Nat
  | [], inWord => if inWord then 1 else 0
  | c :: cs, inWord =>
    if jsWs c then (if inWord then 1 else 0) + wordCountAux cs false
    else wordCountAux cs true

/-- Specification-side notion from section 4.2 of the spec: the
whitespace-tokenized word count of a text, i.e. the number of maximal
non-whitespace runs. -/
def wordCount (cs : List Char) : Nat := wordCountAux cs false

/-- The scanned-document heuristic of parseFile (src/App.tsx line 241):
`pdf.numPages > 0 && textContent.trim().split(/\s+/).length < 50`. -/
def isScannedHeuristic (numPages : Nat) (textContent : List Char) : Bool :=
  decide (0 < numPages) && decide ((jsSplitWs (jsTrim textContent)).length < 50)

/-- A thrown JavaScript value as observed by a catch block: its constructor
name, its message and whether it is an Error instance (values thrown by the
code itself and by the libraries used are always Error instances; a non-Error
throw is modelled with `isError := false`). -/
structure JsError where
  name : List Char
  message : List Char
  isError : Bool
deriving DecidableEq

/-- Settled outcome of an awaited JavaScript promise: a value or a rejection. -/
inductive JsOutcome (α : Type) where
  | ok (val : α)
  | err (e : JsError)
deriving DecidableEq

/-- JavaScript String.prototype.includes(needle) on the character-list model:
true when `needle` occurs contiguously inside `hay`. -/
def jsIncludes (hay needle : List Char) : Bool :=
  match hay with
  | [] => needle.isEmpty
  | _ :: t => needle.isPrefixOf hay || jsIncludes t needle

/-- Declared MIME type accepted for PDF input. -/
def pdfMime : List Char := "application/pdf".toList

/-- Declared MIME type accepted for DOCX input. -/
def docxMime : List Char :=
  "application/vnd.openxmlformats-officedocument.wordprocessingml.document".toList

/-- Observable behaviour of a PDF opened through pdfjsLib.getDocument: its page
count and, for each page index, the settled outcome of
getPage(i) followed by getTextContent() — already joined to the single string
`text.items.map(item => (str in item ? item.str : )).join(' ')` that parseFile
builds per page, a join that no claim depends on. -/
structure PdfDoc where
  numPages : Nat
  pageText : Nat → JsOutcome (List Char)

/-- External world of one ingestion attempt, as observed by handleFileChange:
the identity and declared MIME type of the selected File, the settled outcome
of pdfjsLib.getDocument (covering file.arrayBuffer() as well), the settled
outcome of mammoth.extractRawText, and the settled outcome that
performOcrOnPdf would deliver if awaited during this attempt. -/
structure FileEnv where
  fileId : Nat
  fileType : List Char
  pdfOpen : JsOutcome PdfDoc
  mammothRead : JsOutcome (List Char)
  ocr : JsOutcome (List Char)

/-- Result type of parseFile. -/
structure ParseResult where
  text : List Char
  isScanned : Bool
deriving DecidableEq

/-- Page loop of parseFile: concatenate the text layer of pages 1..numPages,
appending a newline after each page; the first page-level rejection aborts the
whole parse, as an uncaught await does. -/
def pdfTextLoop (d : PdfDoc) : List Nat → List Char → JsOutcome (List Char)
  | [], acc => JsOutcome.ok acc
  | i :: is, acc =>
    match d.pageText i with
    | JsOutcome.err e => JsOutcome.err e
    | JsOutcome.ok t => pdfTextLoop d is (acc ++ t ++ ['\n'])

/-- The error thrown by parseFile for a declared type that is neither PDF nor
DOCX (src/App.tsx line 248). -/
def unsupportedTypeErr : JsError :=
  ⟨"Error".toList, "Unsupported file type".toList, true⟩

/-- Embedding of parseFile (src/App.tsx lines 230-249): extract the text layer
of a PDF together with the scanned-document verdict, or the raw text of a
DOCX (never scan-classified), or throw for any other declared type. -/
def parseFileRun (env : FileEnv) : JsOutcome ParseResult :=
  if env.fileType = pdfMime then
    match env.pdfOpen with
    | JsOutcome.err e => JsOutcome.err e
    | JsOutcome.ok d =>
      match pdfTextLoop d (List.range' 1 d.numPages) [] with
      | JsOutcome.err e => JsOutcome.err e
      | JsOutcome.ok textContent =>
        JsOutcome.ok ⟨textContent, isScannedHeuristic d.numPages textContent⟩
  else if env.fileType = docxMime then
    match env.mammothRead with
    | JsOutcome.err e => JsOutcome.err e
    | JsOutcome.ok t => JsOutcome.ok ⟨t, false⟩
  else JsOutcome.err unsupportedTypeErr

/-- The React state cells of App that the ingestion handlers read or write.
The remaining cells (job description, optimization state, clipboard flag) are
untouched by handleFileChange and handleFileClear and are omitted. -/
structure AppState where
  userCvFile : Option Nat
  userCvText : List Char
  parsingError : Option (List Char)
  isParsing : Bool
  isScanning : Bool
deriving DecidableEq

/-- User-facing message for an unsupported declared type. -/
def uiInvalidTypeMsg : List Char := "Invalid file type. Use PDF or DOCX.".toList

/-- Message of the error thrown by handleFileChange when OCR yields no text. -/
def thrownOcrEmptyMsg : List Char := "AI OCR returned no text.".toList

/-- User-facing message when OCR produced no text. -/
def uiOcrEmptyMsg : List Char :=
  "AI could not read any text from this document.".toList

/-- Needle matched against the message of an AI extraction failure. -/
def ocrFailNeedle : List Char := "Failed to extract text".toList

/-- User-facing message when the AI extraction call failed. -/
def uiOcrFailMsg : List Char :=
  "AI-powered text extraction failed. The document might be unreadable or a network issue occurred.".toList

/-- User-facing message for a password-protected PDF. -/
def uiPasswordMsg : List Char :=
  "This PDF is password-protected. Please upload an unprotected file.".toList

/-- User-facing message for an invalid or corrupted PDF. -/
def uiInvalidPdfMsg : List Char :=
  "The uploaded PDF file appears to be invalid or corrupted.".toList

/-- User-facing message for an unreadable DOCX file. -/
def uiDocxMsg : List Char :=
  "Could not read the DOCX file. It may be corrupted or in an old format.".toList

/-- User-facing generic read-failure message. -/
def uiGenericMsg : List Char := "Failed to read the contents of this file.".toList

/-- User-facing message for a non-Error thrown value. -/
def uiUnexpectedMsg : List Char :=
  "An unexpected error occurred while processing the file.".toList

/-- Error-name dispatch constants used by the catch block of handleFileChange. -/
def pwdExcName : List Char := "PasswordException".toList

/-- Error name pdf.js uses for an invalid PDF. -/
def invalidPdfExcName : List Char := "InvalidPDFException".toList

/-- Error name pdf.js uses for a missing PDF. -/
def missingPdfExcName : List Char := "MissingPDFException".toList

/-- Needle matched against the declared type to recognise DOCX input. -/
def wordprocessingNeedle : List Char := "wordprocessingml".toList

/-- The error-message dispatch of the catch block of handleFileChange
(src/App.tsx lines 313-336), mapping a thrown error and the declared file type
to the user-facing parsing error. -/
def classifyError (e : JsError) (fileType : List Char) : List Char :=
  if jsIncludes e.message thrownOcrEmptyMsg then uiOcrEmptyMsg
  else if jsIncludes e.message ocrFailNeedle then uiOcrFailMsg
  else if e.name = pwdExcName then uiPasswordMsg
  else if e.name = invalidPdfExcName || e.name = missingPdfExcName then uiInvalidPdfMsg
  else if e.isError then
    (if jsIncludes fileType wordprocessingNeedle then uiDocxMsg else uiGenericMsg)
  else uiUnexpectedMsg

/-- The list of accepted declared types of handleFileChange. -/
def acceptedTypes : List (List Char) := [pdfMime, docxMime]

/-- The error thrown by handleFileChange when OCR returns empty or
whitespace-only text (src/App.tsx line 307). -/
def ocrEmptyThrown : JsError := ⟨"Error".toList, thrownOcrEmptyMsg, true⟩

/-- State update of the catch block of handleFileChange: clear the file and
the text, record the classified error message. -/
def segCatch (e : JsError) (fileType : List Char) (s : AppState) : AppState :=
  { s with userCvFile := none, userCvText := [],
           parsingError := some (classifyError e fileType) }

/-- State update of the finally block of handleFileChange. -/
def segFinally (s : AppState) : AppState :=
  { s with isParsing := false, isScanning := false }

/-- Embedding of handleFileChange (src/App.tsx lines 284-341) as the list of
synchronous segments that one invocation runs, cut at its two await points
(await parseFile and await performOcrOnPdf). The rejection of an unsupported
declared type happens before the try block, so it runs in a single segment
that touches no other state cell and triggers no finally. -/
def handleFileChangeSegs (env : FileEnv) : List (AppState → AppState) :=
  if env.fileType ∈ acceptedTypes then
    (fun s => { s with userCvFile := some env.fileId, userCvText := [],
                       parsingError := none, isParsing := true, isScanning := false }) ::
    (match parseFileRun env with
     | JsOutcome.err e => [fun s => segFinally (segCatch e env.fileType s)]
     | JsOutcome.ok r =>
       if r.isScanned && decide (env.fileType = pdfMime) then
         (fun s => { s with isParsing := false, isScanning := true }) ::
         [match env.ocr with
          | JsOutcome.err e => fun s => segFinally (segCatch e env.fileType s)
          | JsOutcome.ok t =>
            if decide (t = []) || decide (jsTrim t = []) then
              fun s => segFinally (segCatch ocrEmptyThrown env.fileType s)
            else fun s => segFinally { s with userCvText := t }]
       else [fun s => segFinally { s with userCvText := r.text }])
  else [fun s => { s with parsingError := some uiInvalidTypeMsg }]

/-- One uninterrupted invocation of handleFileChange: run its segments in
order from the given state. -/
def handleFileChange (env : FileEnv) (s : AppState) : AppState :=
  (handleFileChangeSegs env).foldl (fun st f => f st) s

/-- External pipeline steps an invocation of handleFileChange awaits. -/
inductive ExtCall where
  | parseFile
  | performOcr
deriving DecidableEq

/-- The external pipeline steps started by one invocation of handleFileChange,
in order: nothing for a rejected type; parseFile always otherwise; and
performOcrOnPdf only when the parse succeeded with a scanned verdict on a
declared PDF. -/
def handleFileChangeCalls (env : FileEnv) : List ExtCall :=
  if env.fileType ∈ acceptedTypes then
    ExtCall.parseFile ::
    (match parseFileRun env with
     | JsOutcome.err _ => []
     | JsOutcome.ok r =>
       if r.isScanned && decide (env.fileType = pdfMime) then [ExtCall.performOcr]
       else [])
  else []

/-- Embedding of handleFileClear (src/App.tsx lines 343-349). -/
def handleFileClear (_s : AppState) : AppState :=
  { userCvFile := none, userCvText := [], parsingError := none,
    isParsing := false, isScanning := false }

/-- Cooperative interleaving of two handler invocations: each scheduler entry
says which invocation runs its next pending segment (segments are atomic, as
synchronous JavaScript blocks between awaits are); scheduling an exhausted
invocation does nothing. -/
def runSched : List Bool → List (AppState → AppState) → List (AppState → AppState) → AppState → AppState
  | [], _, _, s => s
  | true :: sch, [], gs, s => runSched sch [] gs s
  | true :: sch, f :: fs, gs, s => runSched sch fs gs (f s)
  | false :: sch, fs, [], s => runSched sch fs [] s
  | false :: sch, fs, g :: gs, s => runSched sch fs gs (g s)

/-- The all-clear initial state of the App component. -/
def initialState : AppState := ⟨none, [], none, false, false⟩

/-- One part of a Gemini generateContent request: a text part or an inline
JPEG attachment carrying a base64 payload. -/
inductive GenPart where
  | text (s : List Char)
  | inlineJpeg (data : List Char)
deriving DecidableEq

/-- One Gemini generateContent request: its ordered content parts. -/
structure GenRequest where
  parts : List GenPart
deriving DecidableEq

/-- Settled outcome of the Gemini transport for one generateContent call:
the response text, or a rejection. -/
inductive GenOutcome where
  | ok (text : List Char)
  | err (e : JsError)
deriving DecidableEq

/-- The fixed OCR instruction of extractTextFromImagesWithGemini. -/
def ocrPrompt : List Char :=
  "You are an Optical Character Recognition (OCR) expert. Extract all text content from these document pages in the order they are provided. Combine the text from all pages into a single block of text. Preserve the original structure, paragraphs, and line breaks as best as possible.".toList

/-- Needle recognising an unusable-credential failure of the Gemini SDK. -/
def apiKeyNeedle : List Char := "API key not valid".toList

/-- User-facing message for an invalid API key. -/
def uiApiKeyMsg : List Char :=
  "The API key is invalid. Please check your configuration.".toList

/-- Message of the error thrown when the AI extraction call fails. -/
def ocrFailMsg : List Char :=
  "Failed to extract text from the document image using AI.".toList

/-- Embedding of extractTextFromImagesWithGemini (Gemini service module):
build the single multi-part request — the fixed OCR instruction followed by
every page image, in order, as inline JPEG data — invoke the generation
capability once, and return its text verbatim; a transport rejection is
re-thrown as the invalid-key error or as the generic extraction failure.
The first component lists the generateContent requests issued. -/
def extractTextFromImagesWithGemini (base64Images : List (List Char))
    (gen : GenOutcome) : List GenRequest × JsOutcome (List Char) :=
  let req : GenRequest := ⟨GenPart.text ocrPrompt :: base64Images.map GenPart.inlineJpeg⟩
  match gen with
  | GenOutcome.ok t => ([req], JsOutcome.ok t)
  | GenOutcome.err e =>
    if e.isError && jsIncludes e.message apiKeyNeedle then
      ([req], JsOutcome.err ⟨"Error".toList, uiApiKeyMsg, true⟩)
    else
      ([req], JsOutcome.err ⟨"Error".toList, ocrFailMsg, true⟩)

/-- Observable behaviour of the PDF re-opened by performOcrOnPdf: its page
count; whether canvas.getContext('2d') yields a context during the iteration
for each page; and the data URL produced by rendering page `i` at viewport
scale `s` and encoding the canvas via toDataURL(mime, quality). -/
structure OcrDoc where
  numPages : Nat
  ctxOk : Nat → Bool
  dataUrl : Nat → ℚ → List Char → ℚ → List Char

/-- JavaScript str.split(sep) for a single-character separator. -/
def splitOnChar (sep : Char) : List Char → List (List Char)
  | [] => [[]]
  | c :: cs =>
    if c = sep then [] :: splitOnChar sep cs
    else
      match splitOnChar sep cs with
      | [] => [[c]]
      | t :: ts => (c :: t) :: ts

/-- The transport-envelope strip dataUrl.split(',')[1] of performOcrOnPdf.
JavaScript yields undefined when no comma exists; every canvas data URL
contains one, and that unreachable case is represented by the empty payload. -/
def afterFirstComma (cs : List Char) : List Char := (splitOnChar ',' cs).getD 1 []

/-- The rendering scale constant of performOcrOnPdf. -/
def ocrScale : ℚ := 2

/-- The JPEG quality constant of performOcrOnPdf. -/
def ocrQuality : ℚ := 9 / 10

/-- The image MIME type passed to toDataURL by performOcrOnPdf. -/
def jpegMimeArg : List Char := "image/jpeg".toList

/-- The page loop of performOcrOnPdf (src/App.tsx lines 256-274): for pages
1..min(numPages, 5) in order, when a 2d context is available, render the page
at scale 2.0, encode it as JPEG at quality 0.9 and push the data URL payload
after stripping the prefix. -/
def buildBase64Images (d : OcrDoc) : List (List Char) :=
  (List.range' 1 (min d.numPages 5)).foldl
    (fun acc i =>
      if d.ctxOk i then acc ++ [afterFirstComma (d.dataUrl i ocrScale jpegMimeArg ocrQuality)]
      else acc) []

/-- The error thrown by performOcrOnPdf when no page produced an image. -/
def renderFailureErr : JsError :=
  ⟨"Error".toList, "Could not convert PDF pages to images for OCR.".toList, true⟩

/-- Embedding of performOcrOnPdf (src/App.tsx lines 251-281): re-open the PDF,
rasterize up to the first five pages, fail when the image list is empty, and
otherwise hand all images to the OCR requester. The first component lists the
generateContent requests issued. -/
def performOcrOnPdf (pdfOpen : JsOutcome OcrDoc) (gen : GenOutcome) :
    List GenRequest × JsOutcome (List Char) :=
  match pdfOpen with
  | JsOutcome.err e => ([], JsOutcome.err e)
  | JsOutcome.ok d =>
    let imgs := buildBase64Images d
    if imgs = [] then ([], JsOutcome.err renderFailureErr)
    else extractTextFromImagesWithGemini imgs gen

/-- A parsed JSON value as produced by the JSON.parse builtin (numbers are
modelled opaquely; no claim depends on numeric values). -/
inductive Json where
  | null
  | bool (b : Bool)
  | num (n : Int)
  | str (s : List Char)
  | arr (elems : List Json)
  | obj (fields : List (List Char × Json))

/-- Field lookup in a JSON object. -/
def lookupField : List (List Char × Json) → List Char → Option Json
  | [], _ => none
  | (k, v) :: fs, key => if k = key then some v else lookupField fs key

/-- Whether a JSON value is a string. -/
def isJsonStr : Json → Bool
  | Json.str _ => true
  | _ => false

/-- Whether a JSON value is an array of strings. -/
def isStrArr : Json → Bool
  | Json.arr xs => xs.all isJsonStr
  | _ => false

/-- Whether a required field is present as a string. -/
def fieldIsStr (fs : List (List Char × Json)) (k : List Char) : Bool :=
  match lookupField fs k with
  | some (Json.str _) => true
  | _ => false

/-- Whether an optional field is absent or present as a string. -/
def optFieldIsStr (fs : List (List Char × Json)) (k : List Char) : Bool :=
  match lookupField fs k with
  | none => true
  | some (Json.str _) => true
  | _ => false

/-- Conformance to the contactInfo schema of cvSchema: email, phone and
location required strings; linkedin optional. -/
def conformsContact : Json → Bool
  | Json.obj fs =>
    fieldIsStr fs "email".toList && fieldIsStr fs "phone".toList &&
    fieldIsStr fs "location".toList && optFieldIsStr fs "linkedin".toList
  | _ => false

/-- Conformance to the workExperience item schema of cvSchema: jobTitle,
company, dates and responsibilities required; location optional. -/
def conformsWork : Json → Bool
  | Json.obj fs =>
    fieldIsStr fs "jobTitle".toList && fieldIsStr fs "company".toList &&
    fieldIsStr fs "dates".toList && optFieldIsStr fs "location".toList &&
    (match lookupField fs "responsibilities".toList with
     | some j => isStrArr j
     | none => false)
  | _ => false

/-- Conformance to the education item schema of cvSchema: institution, degree
and dates required strings. -/
def conformsEdu : Json → Bool
  | Json.obj fs =>
    fieldIsStr fs "institution".toList && fieldIsStr fs "degree".toList &&
    fieldIsStr fs "dates".toList
  | _ => false

/-- Whether a JSON value is an array all of whose items satisfy `p`. -/
def jsonArrAll (p : Json → Bool) : Json → Bool
  | Json.arr xs => xs.all p
  | _ => false

/-- Conformance of a JSON payload to the CvData output schema (cvSchema of the
Gemini service module): fullName, contactInfo, summary, workExperience,
education and skills all required with the listed shapes. -/
def conformsToCvData : Json → Bool
  | Json.obj fs =>
    fieldIsStr fs "fullName".toList &&
    (match lookupField fs "contactInfo".toList with
     | some j => conformsContact j
     | none => false) &&
    fieldIsStr fs "summary".toList &&
    (match lookupField fs "workExperience".toList with
     | some j => jsonArrAll conformsWork j
     | none => false) &&
    (match lookupField fs "education".toList with
     | some j => jsonArrAll conformsEdu j
     | none => false) &&
    (match lookupField fs "skills".toList with
     | some j => isStrArr j
     | none => false)
  | _ => false

/-- Settled outcome of the body of optimizeCvWithGemini up to the JSON.parse
builtin: the generateContent call rejected; or it resolved but its text was
not well-formed JSON so JSON.parse threw a SyntaxError; or JSON.parse
succeeded with the given value. -/
inductive OptOutcome where
  | apiError (e : JsError)
  | syntaxError
  | parsed (j : Json)

/-- Result of optimizeCvWithGemini as the caller observes it: the value
returned as CvData (the code performs a type cast, no validation), or a
thrown error message. -/
inductive OptResult where
  | ok (data : Json)
  | failed (msg : List Char)

/-- User-facing message for a malformed (non-JSON) generation payload. -/
def uiMalformedMsg : List Char :=
  "The AI returned an invalid JSON format. Please try again.".toList

/-- User-facing message for any other generation failure. -/
def uiGenFailMsg : List Char :=
  "Failed to generate optimized CV due to an API error.".toList

/-- Embedding of the response handling of optimizeCvWithGemini (Gemini service
module): a parsed payload is returned directly, cast to CvData without schema
validation; a SyntaxError from JSON.parse maps to the malformed-output
message; a transport rejection maps to the invalid-key message when
attributable to the credential and to the generic failure message otherwise. -/
def optimizeCvWithGemini : OptOutcome → OptResult
  | OptOutcome.parsed j => OptResult.ok j
  | OptOutcome.syntaxError => OptResult.failed uiMalformedMsg
  | OptOutcome.apiError e =>
    if e.isError && jsIncludes e.message apiKeyNeedle then OptResult.failed uiApiKeyMsg
    else OptResult.failed uiGenFailMsg

/-- A placeholder rejection for environment fields that an attempt never
awaits. -/
def dummyErr : JsError := ⟨"Error".toList, "unused".toList, true⟩

/-- Environment of an ingestion attempt for a DOCX file with the given
identity and body text. -/
def docxEnv (id : Nat) (t : List Char) : FileEnv :=
  ⟨id, docxMime, JsOutcome.err dummyErr, JsOutcome.ok t, JsOutcome.err dummyErr⟩

/-- Body text of the first (stale) attempt in the interleaving scenario. -/
def staleText : List Char := "STALE FIRST FILE".toList

/-- Body text of the second (fresh) attempt in the interleaving scenario. -/
def freshText : List Char := "FRESH SECOND FILE".toList

/-- A one-page PDF whose text layer is empty, hence scan-classified. -/
def scannedPdfDoc : PdfDoc := ⟨1, fun _ => JsOutcome.ok []⟩

/-- Environment of a scanned-PDF attempt whose OCR resolves to
whitespace-only text. -/
def envOcrEmpty : FileEnv :=
  ⟨3, pdfMime, JsOutcome.ok scannedPdfDoc, JsOutcome.err dummyErr,
   JsOutcome.ok (' ' :: [])⟩

/-- A transport rejection not attributable to the API credential. -/
def netErr : JsError := ⟨"Error".toList, "network down".toList, true⟩

/-- Environment of a scanned-PDF attempt whose OCR fails because the
generation call itself rejected. -/
def envOcrCapFail : FileEnv :=
  ⟨4, pdfMime, JsOutcome.ok scannedPdfDoc, JsOutcome.err dummyErr,
   (extractTextFromImagesWithGemini (('A' :: []) :: []) (GenOutcome.err netErr)).2⟩

/-- Environment of a PDF attempt whose open fails with the invalid-PDF
exception. -/
def envPdfCorrupt : FileEnv :=
  ⟨7, pdfMime, JsOutcome.err ⟨invalidPdfExcName, "bad xref table".toList, true⟩,
   JsOutcome.err dummyErr, JsOutcome.err dummyErr⟩

/-- Environment of an attempt whose declared type is neither PDF nor DOCX. -/
def envPlainText : FileEnv :=
  ⟨9, "text/plain".toList, JsOutcome.err dummyErr, JsOutcome.err dummyErr,
   JsOutcome.err dummyErr⟩

/-- A state holding a previously ingested file and its extracted text. -/
def busyState : AppState := ⟨some 42, "Existing CV text".toList, none, false, false⟩

/-- A PDF with no pages, for which rasterization yields no images. -/
def ocrDocNoPages : OcrDoc := ⟨0, fun _ => true, fun _ _ _ _ => []⟩

/-- A two-page PDF whose rendering environment returns the data URL p,x for
every page. -/
def ocrDocTwoPages : OcrDoc := ⟨2, fun _ => true, fun _ _ _ _ => 'p' :: ',' :: 'x' :: []⟩

theorem wordCountAux_dropWhile (cs : List Char) :
    wordCountAux (cs.dropWhile jsWs) false = wordCountAux cs false := by
  induction cs with
  | nil => rfl
  | cons c cs ih =>
    by_cases h : jsWs c = true
    · rw [List.dropWhile_cons_of_pos h, ih]
      simp [wordCountAux, h]
    · rw [List.dropWhile_cons_of_neg h]

theorem wordCountAux_all_ws (tail : List Char) (b : Bool)
    (h : ∀ c ∈ tail, jsWs c = true) :
    wordCountAux tail b = if b then 1 else 0 := by
  induction tail generalizing b with
  | nil => rfl
  | cons c t ih =>
    have hc : jsWs c = true := h c (List.mem_cons_self c t)
    have ht : ∀ x ∈ t, jsWs x = true := fun x hx => h x (List.mem_cons_of_mem c hx)
    simp only [wordCountAux, hc, if_pos, ih false ht]
    simp

theorem wordCountAux_append_ws (v tail : List Char) (b : Bool)
    (h : ∀ c ∈ tail, jsWs c = true) :
    wordCountAux (v ++ tail) b = wordCountAux v b := by
  induction v generalizing b with
  | nil =>
    simp only [List.nil_append]
    rw [wordCountAux_all_ws tail b h]
    cases b <;> rfl
  | cons c v ih =>
    by_cases hc : jsWs c = true
    · simp [List.cons_append, wordCountAux, hc, List.append_eq, ih false]
    · simp [List.cons_append, wordCountAux, hc, List.append_eq, ih true]

theorem wordCount_jsTrim (cs : List Char) : wordCount (jsTrim cs) = wordCount cs := by
  unfold wordCount jsTrim
  set u := cs.dropWhile jsWs with hu
  have hsplit : u.reverse.takeWhile jsWs ++ u.reverse.dropWhile jsWs = u.reverse :=
    List.takeWhile_append_dropWhile jsWs u.reverse
  have hdecomp : u = ((u.reverse.dropWhile jsWs).reverse) ++ ((u.reverse.takeWhile jsWs).reverse) := by
    calc u = u.reverse.reverse := (List.reverse_reverse u).symm
    _ = (u.reverse.takeWhile jsWs ++ u.reverse.dropWhile jsWs).reverse := by rw [hsplit]
    _ = _ := by rw [List.reverse_append]
  have hws : ∀ c ∈ (u.reverse.takeWhile jsWs).reverse, jsWs c = true := by
    intro c hc
    exact List.mem_takeWhile_imp (List.mem_reverse.mp hc)
  have h1 : wordCountAux ((u.reverse.dropWhile jsWs).reverse) false = wordCountAux u false := by
    conv_rhs => rw [hdecomp]
    rw [wordCountAux_append_ws _ _ false hws]
  rw [h1, hu, wordCountAux_dropWhile]

theorem head_dropWhile_not_ws (cs : List Char) :
    ∀ c, (cs.dropWhile jsWs).head? = some c → jsWs c = false := by
  induction cs with
  | nil => intro c h; cases h
  | cons a t ih =>
    intro c h
    by_cases ha : jsWs a = true
    · rw [List.dropWhile_cons_of_pos ha] at h
      exact ih c h
    · rw [List.dropWhile_cons_of_neg ha] at h
      simp only [List.head?_cons, Option.some.injEq] at h
      rw [← h]
      exact Bool.eq_false_iff.mpr ha

theorem jsSplitWsAux_length :
    ∀ (v acc : List Char) (prevWs : Bool),
      (∀ c, v.getLast? = some c → jsWs c = false) →
      (prevWs = true → v ≠ []) →
      (jsSplitWsAux v acc prevWs).length = wordCountAux v (!prevWs) := by
  intro v
  induction v with
  | nil =>
    intro acc prevWs _ hne
    cases prevWs with
    | false => rfl
    | true => exact absurd rfl (hne rfl)
  | cons c w ih =>
    intro acc prevWs hlast hne
    by_cases hc : jsWs c = true
    · have hwne : w ≠ [] := by
        intro hw
        subst hw
        have : jsWs c = false := hlast c rfl
        rw [hc] at this
        cases this
      have hlastw : ∀ c', w.getLast? = some c' → jsWs c' = false := by
        intro c' h'
        apply hlast
        match w, hwne with
        | b :: w', _ => rw [List.getLast?_cons_cons]; exact h'
      have hrec : (jsSplitWsAux w [] true).length = wordCountAux w false := by
        have := ih [] true hlastw (fun _ => hwne)
        simpa using this
      cases prevWs with
      | true =>
        have h2 : jsSplitWsAux (c :: w) acc true = jsSplitWsAux w [] true := by
          simp [jsSplitWsAux, hc]
        rw [h2, hrec]
        simp [wordCountAux, hc]
      | false =>
        have h2 : jsSplitWsAux (c :: w) acc false = acc.reverse :: jsSplitWsAux w [] true := by
          simp [jsSplitWsAux, hc]
        rw [h2, List.length_cons, hrec]
        simp [wordCountAux, hc, Nat.add_comm]
    · have hlastw : ∀ c', w.getLast? = some c' → jsWs c' = false := by
        intro c' h'
        apply hlast
        match w, h' with
        | b :: w', h' => rw [List.getLast?_cons_cons]; exact h'
      have h2 : jsSplitWsAux (c :: w) acc prevWs = jsSplitWsAux w (c :: acc) false := by
        simp [jsSplitWsAux, hc]
      rw [h2, ih (c :: acc) false hlastw (by intro h; cases h)]
      simp [wordCountAux, hc]

theorem jsSplit_trim_length (t : List Char) :
    (jsSplitWs (jsTrim t)).length = if jsTrim t = [] then 1 else wordCount t := by
  have hlast : ∀ c, (jsTrim t).getLast? = some c → jsWs c = false := by
    intro c h
    unfold jsTrim at h
    rw [List.getLast?_reverse] at h
    exact head_dropWhile_not_ws _ c h
  have hlen : (jsSplitWs (jsTrim t)).length = wordCountAux (jsTrim t) true := by
    unfold jsSplitWs
    have := jsSplitWsAux_length (jsTrim t) [] false hlast (by intro h; cases h)
    simpa using this
  by_cases h : jsTrim t = []
  · rw [hlen, h, if_pos rfl]
    rfl
  · rw [hlen, if_neg h]
    match hu : jsTrim t, h with
    | c :: v, _ =>
      have hpre : jsTrim t <+: t.dropWhile jsWs := by
        unfold jsTrim
        have h2 : ((t.dropWhile jsWs).reverse.dropWhile jsWs).reverse <+:
            (t.dropWhile jsWs).reverse.reverse :=
          List.reverse_prefix.mpr (List.dropWhile_suffix jsWs)
        rwa [List.reverse_reverse] at h2
      have hc : jsWs c = false := by
        apply head_dropWhile_not_ws t
        obtain ⟨r, hr⟩ := hpre
        rw [← hr, hu]
        rfl
      have h1 : wordCountAux (c :: v) true = wordCountAux (c :: v) false := by
        simp [wordCountAux, hc]
      rw [h1, ← hu]
      exact wordCount_jsTrim t

theorem splitOnChar_no_sep (sep : Char) (u : List Char) (h : sep ∉ u) :
    splitOnChar sep u = [u] := by
  induction u with
  | nil => rfl
  | cons c cs ih =>
    have hc : ¬ c = sep := by
      intro hh
      exact h (hh ▸ List.mem_cons_self c cs)
    have hcs : sep ∉ cs := fun hh => h (List.mem_cons_of_mem c hh)
    unfold splitOnChar
    rw [if_neg hc, ih hcs]

theorem splitOnChar_cons (sep c : Char) (cs : List Char) :
    splitOnChar sep (c :: cs) =
      if c = sep then [] :: splitOnChar sep cs
      else
        match splitOnChar sep cs with
        | [] => [[c]]
        | t :: ts => (c :: t) :: ts := rfl

theorem splitOnChar_append (sep : Char) (pre rest : List Char) (h : sep ∉ pre) :
    splitOnChar sep (pre ++ sep :: rest) = pre :: splitOnChar sep rest := by
  induction pre with
  | nil =>
    show splitOnChar sep (sep :: rest) = [] :: splitOnChar sep rest
    rw [splitOnChar_cons, if_pos rfl]
  | cons c p ih =>
    have hc : ¬ c = sep := by
      intro hh
      exact h (hh ▸ List.mem_cons_self c p)
    have hp : sep ∉ p := fun hh => h (List.mem_cons_of_mem c hh)
    show splitOnChar sep (c :: (p ++ sep :: rest)) = (c :: p) :: splitOnChar sep rest
    rw [splitOnChar_cons, if_neg hc, ih hp]

theorem afterFirstComma_strip (pre pay : List Char) (hpre : ',' ∉ pre)
    (hpay : ',' ∉ pay) : afterFirstComma (pre ++ ',' :: pay) = pay := by
  unfold afterFirstComma
  rw [splitOnChar_append ',' pre pay hpre, splitOnChar_no_sep ',' pay hpay]
  rfl

theorem buildImages_all_ctx (d : OcrDoc) (hctx : ∀ i, d.ctxOk i = true) :
    buildBase64Images d =
      (List.range' 1 (min d.numPages 5)).map
        (fun i => afterFirstComma (d.dataUrl i ocrScale jpegMimeArg ocrQuality)) := by
  unfold buildBase64Images
  have key : ∀ (l : List Nat) (acc : List (List Char)),
      l.foldl
        (fun acc i =>
          if d.ctxOk i then
            acc ++ [afterFirstComma (d.dataUrl i ocrScale jpegMimeArg ocrQuality)]
          else acc) acc =
      acc ++ l.map (fun i => afterFirstComma (d.dataUrl i ocrScale jpegMimeArg ocrQuality)) := by
    intro l
    induction l with
    | nil => intro acc; simp
    | cons i l ih => intro acc; simp [hctx i, ih]
  simpa using key (List.range' 1 (min d.numPages 5)) []

/-- C1: the Scan Heuristic classifies an extraction result as scanned exactly
when the page count is positive and the whitespace-tokenized word count of the
concatenated text is strictly below 50; a DOCX parse always carries a false
verdict and a DOCX attempt never starts the OCR step. -/
theorem scan_heuristic_spec :
    (∀ (numPages : Nat) (textContent : List Char),
      isScannedHeuristic numPages textContent = true ↔
        0 < numPages ∧ wordCount textContent < 50) ∧
    (∀ (env : FileEnv) (r : ParseResult),
      env.fileType = docxMime → parseFileRun env = JsOutcome.ok r →
        r.isScanned = false) ∧
    (∀ env : FileEnv, env.fileType = docxMime →
      ExtCall.performOcr ∉ handleFileChangeCalls env) := by
  refine ⟨?_, ?_, ?_⟩
  · intro n t
    unfold isScannedHeuristic
    simp only [Bool.and_eq_true, decide_eq_true_eq]
    rw [jsSplit_trim_length]
    by_cases h : jsTrim t = []
    · rw [if_pos h]
      have h0 : wordCount t = 0 := by
        rw [← wordCount_jsTrim t, h]
        rfl
      rw [h0]
      constructor
      · intro hh; exact ⟨hh.1, by omega⟩
      · intro hh; exact ⟨hh.1, by omega⟩
    · rw [if_neg h]
  · intro env r hft hok
    unfold parseFileRun at hok
    rw [hft] at hok
    rw [if_neg (by decide), if_pos rfl] at hok
    cases h2 : env.mammothRead with
    | err e =>
      rw [h2] at hok
      exact JsOutcome.noConfusion hok
    | ok t =>
      rw [h2] at hok
      injection hok with h3
      rw [← h3]
  · intro env hft
    unfold handleFileChangeCalls
    have hmem : env.fileType ∈ acceptedTypes := by
      rw [hft]
      decide
    rw [if_pos hmem]
    cases h2 : parseFileRun env with
    | err e => simp
    | ok r =>
      have hdp : (decide (env.fileType = pdfMime)) = false := by
        rw [hft]
        decide
      simp [hdp]

/-- Witness for C1: a one-page PDF with a two-word text layer is classified
as scanned, and a concrete DOCX attempt is parsed unscanned and never starts
OCR. -/
theorem scan_heuristic_spec_witness :
    isScannedHeuristic 1 ('h' :: 'i' :: []) = true ∧
    (⟨staleText, false⟩ : ParseResult).isScanned = false ∧
    ExtCall.performOcr ∉ handleFileChangeCalls (docxEnv 1 staleText) :=
  ⟨(scan_heuristic_spec.1 1 ('h' :: 'i' :: [])).mpr ⟨by decide, by decide⟩,
   scan_heuristic_spec.2.1 (docxEnv 1 staleText) ⟨staleText, false⟩ rfl (by decide),
   scan_heuristic_spec.2.2 (docxEnv 1 staleText) rfl⟩

/-- C2: the claim fails on the code. optimizeCvWithGemini validates only
well-formedness (JSON.parse) and then casts, so the well-formed but
non-schema-conforming payload, an empty object, is returned as a successful
CvData value instead of surfacing as the malformed-output failure. -/
theorem optimize_returns_unvalidated_json :
    optimizeCvWithGemini (OptOutcome.parsed (Json.obj [])) =
      OptResult.ok (Json.obj []) ∧
    conformsToCvData (Json.obj []) = false ∧
    optimizeCvWithGemini (OptOutcome.parsed (Json.obj [])) ≠
      OptResult.failed uiMalformedMsg :=
  ⟨rfl, rfl, fun h => OptResult.noConfusion h⟩

/-- C3: the claim fails on the code. handleFileChange carries no
attempt-generation token, so under the schedule that starts attempt 2 while
attempt 1 awaits its parse and lets attempt 1 resolve last, the stale
attempt's text overwrites the fresh one: the final state pairs file 2 with
file 1's text. -/
theorem stale_attempt_overwrites :
    (runSched [true, false, false, true]
        (handleFileChangeSegs (docxEnv 1 staleText))
        (handleFileChangeSegs (docxEnv 2 freshText)) initialState).userCvText =
      staleText ∧
    (runSched [true, false, false, true]
        (handleFileChangeSegs (docxEnv 1 staleText))
        (handleFileChangeSegs (docxEnv 2 freshText)) initialState).userCvFile =
      some 2 ∧
    staleText ≠ freshText := by
  refine ⟨by decide, by decide, by decide⟩

/-- C4: every failing ingestion attempt — whether the extraction phase or the
scanned-document OCR branch failed — discards all partial state: the exposed
CV text is empty and the file is cleared, so an OCR-branch failure never falls
back to the near-empty extracted text layer. -/
theorem failed_attempt_discards_text (env : FileEnv) (s : AppState)
    (hacc : env.fileType ∈ acceptedTypes)
    (hfail : (handleFileChange env s).parsingError ≠ none) :
    (handleFileChange env s).userCvText = [] ∧
    (handleFileChange env s).userCvFile = none := by
  unfold handleFileChange handleFileChangeSegs at hfail ⊢
  rw [if_pos hacc] at hfail ⊢
  cases hp : parseFileRun env with
  | err e =>
    simp [List.foldl, segFinally, segCatch]
  | ok r =>
    rw [hp] at hfail
    by_cases hs : (r.isScanned && decide (env.fileType = pdfMime)) = true
    · cases ho : env.ocr with
      | err e =>
        simp [List.foldl, hs, segFinally, segCatch]
      | ok t =>
        rw [ho] at hfail
        by_cases ht : (decide (t = []) || decide (jsTrim t = [])) = true
        · simp [List.foldl, hs, ht, segFinally, segCatch]
        · simp [List.foldl, hs, ht, segFinally] at hfail
    · simp [List.foldl, hs, segFinally] at hfail

/-- Witness for C4: an attempt on a corrupt PDF fails and leaves the text
empty and the file cleared. -/
theorem failed_attempt_discards_text_witness :
    (handleFileChange envPdfCorrupt initialState).userCvText = [] ∧
    (handleFileChange envPdfCorrupt initialState).userCvFile = none :=
  failed_attempt_discards_text envPdfCorrupt initialState (by decide) (by decide)

/-- C5: for any rendering environment in which every page gets a 2d context
and toDataURL yields a well-formed data URL (a comma-free prefix, the comma,
then the comma-free payload), the rasterizer produces exactly the payloads of
pages 1..min(pageCount, 5) in page order — each obtained at scale 2.0, MIME
image/jpeg, quality 0.9 — and an empty image sequence makes performOcrOnPdf
fail with the render-failure error without issuing any generation call. -/
theorem rasterizer_pages_spec (d : OcrDoc) (pre pay : Nat → List Char)
    (hctx : ∀ i, d.ctxOk i = true)
    (hurl : ∀ i, d.dataUrl i ocrScale jpegMimeArg ocrQuality = pre i ++ ',' :: pay i)
    (hpre : ∀ i, ',' ∉ pre i) (hpay : ∀ i, ',' ∉ pay i) :
    buildBase64Images d = (List.range' 1 (min d.numPages 5)).map pay ∧
    (∀ gen : GenOutcome, buildBase64Images d = [] →
      performOcrOnPdf (JsOutcome.ok d) gen = ([], JsOutcome.err renderFailureErr)) := by
  constructor
  · rw [buildImages_all_ctx d hctx]
    apply List.map_congr_left
    intro i _
    rw [hurl i, afterFirstComma_strip (pre i) (pay i) (hpre i) (hpay i)]
  · intro gen h
    simp [performOcrOnPdf, h]

/-- Witness for C5: a concrete two-page document whose render environment
returns the data URL "p,x" on every page yields exactly the payload "x" for
pages 1 and 2. -/
theorem rasterizer_pages_spec_witness :
    buildBase64Images ocrDocTwoPages =
      (List.range' 1 (min ocrDocTwoPages.numPages 5)).map (fun _ => 'x' :: []) :=
  (rasterizer_pages_spec ocrDocTwoPages (fun _ => 'p' :: []) (fun _ => 'x' :: [])
    (fun _ => rfl) (fun _ => rfl)
    (fun _ => by show (',' : Char) ∉ ('p' :: []); decide)
    (fun _ => by show (',' : Char) ∉ ('x' :: []); decide)).1

/-- C6: for a non-empty image sequence the OCR requester issues exactly one
generation call, whose parts are the fixed OCR instruction followed by all
page images in their given order, and a successful call returns the raw
response text verbatim. -/
theorem ocr_requester_single_call (imgs : List (List Char)) (gen : GenOutcome)
    (_hne : imgs ≠ []) :
    (extractTextFromImagesWithGemini imgs gen).1 =
      [⟨GenPart.text ocrPrompt :: imgs.map GenPart.inlineJpeg⟩] ∧
    (∀ t, gen = GenOutcome.ok t →
      (extractTextFromImagesWithGemini imgs gen).2 = JsOutcome.ok t) := by
  constructor
  · cases gen with
    | ok t => rfl
    | err e =>
      by_cases hb : (e.isError && jsIncludes e.message apiKeyNeedle) = true
      · simp [extractTextFromImagesWithGemini, hb]
      · simp [extractTextFromImagesWithGemini, hb]
  · intro t ht
    subst ht
    rfl

/-- Witness for C6: a one-image sequence produces the single two-part request. -/
theorem ocr_requester_single_call_witness :
    (extractTextFromImagesWithGemini (('A' :: []) :: [])
        (GenOutcome.ok ('o' :: 'k' :: []))).1 =
      [⟨GenPart.text ocrPrompt :: (('A' :: []) :: []).map GenPart.inlineJpeg⟩] :=
  (ocr_requester_single_call (('A' :: []) :: []) (GenOutcome.ok ('o' :: 'k' :: []))
    (by decide)).1

/-- C7 counterexample: the claim fails on the code. For the empty image
sequence the OCR requester does not reject with any failure: it still issues
one generation call (carrying only the fixed instruction) and returns its
result. -/
theorem ocr_empty_input_invokes_capability :
    (extractTextFromImagesWithGemini [] (GenOutcome.ok ('h' :: 'i' :: []))).1 =
      [⟨[GenPart.text ocrPrompt]⟩] ∧
    (extractTextFromImagesWithGemini [] (GenOutcome.ok ('h' :: 'i' :: []))).2 =
      JsOutcome.ok ('h' :: 'i' :: []) :=
  ⟨rfl, rfl⟩

/-- C7 amended: the requester performs no emptiness check — given the empty
sequence it issues one generation call whose only part is the fixed
instruction; emptiness is instead rejected upstream, where performOcrOnPdf
fails with the render-failure error and issues no generation call when no
page image was produced. -/
theorem ocr_empty_input_behavior (gen : GenOutcome) :
    (extractTextFromImagesWithGemini [] gen).1 = [⟨[GenPart.text ocrPrompt]⟩] ∧
    (∀ d : OcrDoc, buildBase64Images d = [] →
      performOcrOnPdf (JsOutcome.ok d) gen = ([], JsOutcome.err renderFailureErr)) := by
  constructor
  · cases gen with
    | ok t => rfl
    | err e =>
      by_cases hb : (e.isError && jsIncludes e.message apiKeyNeedle) = true
      · simp [extractTextFromImagesWithGemini, hb]
      · simp [extractTextFromImagesWithGemini, hb]
  · intro d h
    simp [performOcrOnPdf, h]

/-- Witness for C7 amended: concrete empty-sequence call and a zero-page
document. -/
theorem ocr_empty_input_behavior_witness :
    (extractTextFromImagesWithGemini [] (GenOutcome.ok ('x' :: []))).1 =
      [⟨[GenPart.text ocrPrompt]⟩] ∧
    performOcrOnPdf (JsOutcome.ok ocrDocNoPages) (GenOutcome.ok ('x' :: [])) =
      ([], JsOutcome.err renderFailureErr) :=
  ⟨(ocr_empty_input_behavior (GenOutcome.ok ('x' :: []))).1,
   (ocr_empty_input_behavior (GenOutcome.ok ('x' :: []))).2 ocrDocNoPages (by decide)⟩

/-- C8: a scanned-PDF attempt whose OCR resolves to empty-or-whitespace-only
text fails with the OCR-produced-no-text message, a scanned-PDF attempt whose
generation call itself rejected fails with the extraction-capability-failure
message, and the two user-facing errors are distinct. -/
theorem ocr_empty_vs_capability_errors
    (env1 env2 : FileEnv) (s : AppState) (r1 r2 : ParseResult)
    (t : List Char) (imgs : List (List Char)) (e : JsError)
    (h1p : env1.fileType = pdfMime) (h1r : parseFileRun env1 = JsOutcome.ok r1)
    (h1s : r1.isScanned = true) (h1o : env1.ocr = JsOutcome.ok t)
    (ht : jsTrim t = [])
    (h2p : env2.fileType = pdfMime) (h2r : parseFileRun env2 = JsOutcome.ok r2)
    (h2s : r2.isScanned = true)
    (h2o : env2.ocr = (extractTextFromImagesWithGemini imgs (GenOutcome.err e)).2)
    (hek : (e.isError && jsIncludes e.message apiKeyNeedle) = false) :
    (handleFileChange env1 s).parsingError = some uiOcrEmptyMsg ∧
    (handleFileChange env2 s).parsingError = some uiOcrFailMsg ∧
    uiOcrEmptyMsg ≠ uiOcrFailMsg := by
  have hclass1 : classifyError ocrEmptyThrown env1.fileType = uiOcrEmptyMsg := by
    unfold classifyError
    have hb : jsIncludes ocrEmptyThrown.message thrownOcrEmptyMsg = true := by decide
    simp [hb]
  have hclass2 : classifyError ⟨"Error".toList, ocrFailMsg, true⟩ env2.fileType =
      uiOcrFailMsg := by
    unfold classifyError
    have hb1 : jsIncludes ocrFailMsg thrownOcrEmptyMsg = false := by decide
    have hb2 : jsIncludes ocrFailMsg ocrFailNeedle = true := by decide
    simp [hb1, hb2]
  have hocr2 : env2.ocr = JsOutcome.err ⟨"Error".toList, ocrFailMsg, true⟩ := by
    rw [h2o]
    simp [extractTextFromImagesWithGemini, hek]
  refine ⟨?_, ?_, by decide⟩
  · have hacc : env1.fileType ∈ acceptedTypes := by
      rw [h1p]
      decide
    unfold handleFileChange handleFileChangeSegs
    rw [if_pos hacc, h1r]
    have hcond : (r1.isScanned && decide (env1.fileType = pdfMime)) = true := by
      rw [h1s, h1p]
      simp
    have htc : (decide (t = []) || decide (jsTrim t = [])) = true := by
      rw [ht]
      simp
    simp [hcond, h1o, htc, List.foldl, segFinally, segCatch, hclass1]
  · have hacc : env2.fileType ∈ acceptedTypes := by
      rw [h2p]
      decide
    unfold handleFileChange handleFileChangeSegs
    rw [if_pos hacc, h2r]
    have hcond : (r2.isScanned && decide (env2.fileType = pdfMime)) = true := by
      rw [h2s, h2p]
      simp
    simp [hcond, hocr2, List.foldl, segFinally, segCatch]
    exact hclass2

/-- Witness for C8: concrete environments — OCR resolving to a single space,
and OCR whose generation call rejected with a network error. -/
theorem ocr_empty_vs_capability_errors_witness :
    (handleFileChange envOcrEmpty initialState).parsingError = some uiOcrEmptyMsg ∧
    (handleFileChange envOcrCapFail initialState).parsingError = some uiOcrFailMsg ∧
    uiOcrEmptyMsg ≠ uiOcrFailMsg :=
  ocr_empty_vs_capability_errors envOcrEmpty envOcrCapFail initialState
    ⟨'\n' :: [], true⟩ ⟨'\n' :: [], true⟩ (' ' :: []) (('A' :: []) :: []) netErr
    rfl (by decide) rfl rfl (by decide) rfl (by decide) rfl rfl (by decide)

/-- C9: a file whose declared type is neither accepted MIME type is rejected
in one step — the only state effect is the invalid-type parsing error — and
neither the extraction step nor the OCR step is ever started; the judgment
reads only the declared type, as the conclusion holds for every environment
regardless of content outcomes. -/
theorem unsupported_type_rejected (env : FileEnv) (s : AppState)
    (h : env.fileType ∉ acceptedTypes) :
    handleFileChange env s = { s with parsingError := some uiInvalidTypeMsg } ∧
    handleFileChangeCalls env = [] := by
  constructor
  · unfold handleFileChange handleFileChangeSegs
    rw [if_neg h]
    rfl
  · unfold handleFileChangeCalls
    rw [if_neg h]

/-- Witness for C9: a text/plain file is rejected with no pipeline calls. -/
theorem unsupported_type_rejected_witness :
    handleFileChange envPlainText busyState =
      { busyState with parsingError := some uiInvalidTypeMsg } ∧
    handleFileChangeCalls envPlainText = [] :=
  unsupported_type_rejected envPlainText busyState (by decide)

/-- C10: selecting an unsupported file over a successfully ingested one sets
only the parsing-error message — the previous file, its extracted text and
both loading flags are unchanged — whereas handleFileClear unconditionally
discards all of them. -/
theorem unsupported_type_frame (env : FileEnv) (s : AppState)
    (h : env.fileType ∉ acceptedTypes) :
    ((handleFileChange env s).userCvFile = s.userCvFile ∧
     (handleFileChange env s).userCvText = s.userCvText ∧
     (handleFileChange env s).isParsing = s.isParsing ∧
     (handleFileChange env s).isScanning = s.isScanning ∧
     (handleFileChange env s).parsingError = some uiInvalidTypeMsg) ∧
    (∀ s' : AppState, handleFileClear s' =
      { userCvFile := none, userCvText := [], parsingError := none,
        isParsing := false, isScanning := false }) := by
  constructor
  · unfold handleFileChange handleFileChangeSegs
    rw [if_neg h]
    exact ⟨rfl, rfl, rfl, rfl, rfl⟩
  · intro s'
    rfl

/-- Witness for C10: with a previously ingested file in state, a text/plain
selection leaves file, text and flags untouched while setting the error, and
clearing resets everything. -/
theorem unsupported_type_frame_witness :
    (handleFileChange envPlainText busyState).userCvFile = busyState.userCvFile ∧
    (handleFileChange envPlainText busyState).userCvText = busyState.userCvText ∧
    (handleFileChange envPlainText busyState).parsingError = some uiInvalidTypeMsg ∧
    handleFileClear busyState =
      { userCvFile := none, userCvText := [], parsingError := none,
        isParsing := false, isScanning := false } :=
  ⟨(unsupported_type_frame envPlainText busyState (by decide)).1.1,
   (unsupported_type_frame envPlainText busyState (by decide)).1.2.1,
   (unsupported_type_frame envPlainText busyState (by decide)).1.2.2.2.2,
   (unsupported_type_frame envPlainText busyState (by decide)).2 busyState⟩
